import Mathlib

/-!
Verification development for the patent-relevance evaluation pipeline.

The Python source is shallowly embedded: Python strings are `String`
(lists of characters where character-level reasoning is needed), Python
floats are `ℚ` (the arithmetic in the pipeline is exact decimal
arithmetic on small values), parsed JSON values are the inductive
`JsonVal`, fallible code returns `Option`/`Except`, and a function that
can either raise the repository's `ValidationError`, raise some other
uncaught Python exception, or return normally has the three-valued
result type `VResult`.
-/

namespace AgenticEval

/-- The whitespace characters stripped by Python's `str.strip()`. -/
def isPySpace (c : Char) : Bool :=
  c = ' ' || c = '\t' || c = '\n' || c = '\r' || c = Char.ofNat 11 || c = Char.ofNat 12

/-- Left strip, on character lists (Python `str.lstrip()`). -/
def lstrip (l : List Char) : List Char := l.dropWhile isPySpace

/-- Right strip, on character lists (Python `str.rstrip()`). -/
def rstrip (l : List Char) : List Char := (l.reverse.dropWhile isPySpace).reverse

/-- Python `str.strip()`, on character lists. -/
def pyStrip (l : List Char) : List Char := lstrip (rstrip l)

/-- Python `str.strip()`, on `String`. -/
def pyStripStr (s : String) : String := (pyStrip s.toList).asString

/-- Digit-list value, most significant first (for modelling `float(str)`). -/
def digitsVal (l : List Char) : ℕ := l.foldl (fun acc c => 10 * acc + (c.toNat - 48)) 0

/--
Model of Python's `float(string)` on its plain decimal subset:
optional surrounding whitespace, optional sign, digits with an optional
single decimal point (at least one digit overall).  Exponent forms and
`inf`/`nan` are outside the modelled subset; no claim depends on them.
-/
def parseFloat (s : String) : Option ℚ :=
  let l := pyStrip s.toList
  let signed : ℚ × List Char :=
    match l with
    | c :: rest => if c = '-' then (-1, rest) else if c = '+' then (1, rest) else (1, l)
    | [] => (1, [])
  let sign := signed.1
  let body := signed.2
  let ip := body.takeWhile Char.isDigit
  let rest := body.dropWhile Char.isDigit
  match rest with
  | [] => if ip = [] then none else some (sign * digitsVal ip)
  | c :: rest2 =>
    if c = '.' then
      let fp := rest2.takeWhile Char.isDigit
      let rest3 := rest2.dropWhile Char.isDigit
      if rest3 = [] ∧ (ip ≠ [] ∨ fp ≠ []) then
        some (sign * ((digitsVal ip : ℚ) + (digitsVal fp : ℚ) / 10 ^ fp.length))
      else none
    else none

/-- Parsed JSON values (`json.loads` results). -/
inductive JsonVal where
  | jnum (q : ℚ)
  | jstr (s : String)
  | jarr (xs : List JsonVal)
  | jobj (fields : List (String × JsonVal))
  | jbool (b : Bool)
  | jnull

/--
Model of Python's `float(x)` applied to a parsed JSON value:
numbers and booleans convert, numeric strings parse, everything else
raises (`ValueError`/`TypeError`), modelled as `none`.
-/
def pyFloat : JsonVal → Option ℚ
  | .jnum q => some q
  | .jbool b => some (if b then 1 else 0)
  | .jstr s => parseFloat s
  | _ => none

/-- Association-list lookup on a parsed JSON object (Python dict access). -/
def jsonLookup (data : List (String × JsonVal)) (key : String) : Option JsonVal :=
  match data with
  | [] => none
  | (k, v) :: rest => if key = k then some v else jsonLookup rest key

/-- Python `dict.get(key, default)` on a parsed JSON object. -/
def dictGet (data : List (String × JsonVal)) (key : String) (dflt : JsonVal) : JsonVal :=
  (jsonLookup data key).getD dflt

/--
The result of `json.loads` on the raw LLM output, as the validator sees
it: either the string was not parseable JSON, or it parsed to an
object.  (Parseable JSON whose top level is not an object makes the
Python code fail with an uncaught `AttributeError` on `.get`; that path
is outside the modelled input domain.)
-/
inductive RawJson where
  | unparseable
  | parsed (data : List (String × JsonVal))

/-- `models.DimensionScore`, the validated per-dimension score record. -/
structure DimensionScore where
  raw_score : ℚ
  normalized_score : ℚ
  sources : List String
  agent : String
  notes : String
  confidence : ℚ
deriving DecidableEq, Repr

/--
The pydantic constructor of `DimensionScore` (`models.py`): field
bounds `raw_score ∈ [0,5]`, `normalized_score ∈ [0,100]`,
`confidence ∈ [0,1]`, at least one source, all sources non-empty after
stripping, and notes at least 5 characters after stripping.  Returns
`none` when pydantic would raise.
-/
def mkDimensionScore (raw normalized : ℚ) (sources : List String)
    (agent notes : String) (confidence : ℚ) : Option DimensionScore :=
  if 0 ≤ raw ∧ raw ≤ 5 ∧ 0 ≤ normalized ∧ normalized ≤ 100 ∧
      0 ≤ confidence ∧ confidence ≤ 1 ∧
      sources.length ≥ 1 ∧ (∀ s ∈ sources, pyStripStr s ≠ "") ∧
      (pyStripStr notes).length ≥ 5 then
    some ⟨raw, normalized, sources, agent, notes, confidence⟩
  else none

/-- Outcome of running `OutputValidator.validate_dimension_score`. -/
inductive VResult where
  | ok (ds : DimensionScore)
  | vErr (msg : String)
  | uncaught
deriving DecidableEq, Repr

/-- Extract the stripped non-empty string sources, as the list
comprehension in `validation.py` does. -/
def extractSources (xs : List JsonVal) : List String :=
  xs.filterMap fun v =>
    match v with
    | .jstr s => if pyStripStr s = "" then none else some (pyStripStr s)
    | _ => none

/--
`OutputValidator.validate_dimension_score` (`validation.py`): parse
failure and each semantic check raise `ValidationError` (`vErr`); a
present but non-numeric `confidence` raises an uncaught `ValueError`
(`float` is called outside any `try`), modelled as `uncaught`; missing
`aggregate_score` defaults to `0`, missing `confidence` to `0.5`.
-/
def validate_dimension_score (raw : RawJson) (agent_name : String)
    (min_confidence : ℚ) : VResult :=
  match raw with
  | .unparseable => .vErr ("Invalid JSON from " ++ agent_name)
  | .parsed data =>
    match pyFloat (dictGet data ("aggregate_score") (.jnum 0)) with
    | none => .vErr (agent_name ++ (": Invalid score value"))
    | some score =>
      if ¬ (0 ≤ score ∧ score ≤ 5) then
        .vErr (agent_name ++ (": Score out of range [0-5]"))
      else
        match dictGet data ("sources") (.jarr []) with
        | .jarr xs =>
          if xs.length = 0 then .vErr (agent_name ++ (": No sources provided"))
          else
            let sources := extractSources xs
            if sources = [] then .vErr (agent_name ++ (": All sources are empty strings"))
            else
              match dictGet data ("notes") (.jstr "") with
              | .jstr notes =>
                if (pyStripStr notes).length < 5 then
                  .vErr (agent_name ++ (": Notes too brief or missing (min 5 chars)"))
                else
                  match pyFloat (dictGet data ("confidence") (.jnum (1/2))) with
                  | none => .uncaught
                  | some confidence =>
                    if confidence < min_confidence then
                      .vErr (agent_name ++ (": Confidence below minimum"))
                    else
                      match mkDimensionScore score (score / 5 * 100) sources
                          agent_name (pyStripStr notes) confidence with
                      | some ds => .ok ds
                      | none => .vErr (agent_name ++ (": Failed to create DimensionScore"))
              | _ => .vErr (agent_name ++ (": Notes too brief or missing (min 5 chars)"))
        | _ => .vErr (agent_name ++ (": No sources provided"))

/-- The fixed fallback `DimensionScore` built by the two guardrailed
agents on `ValidationError` (`signal_agents.py`). -/
def fallbackScore (name : String) : DimensionScore :=
  ⟨5/2, 50, [("fallback_default")], name,
    ("Validation error occurred; using default score"), 3/10⟩

/--
The deterministic tail of `compute_signal` for the two guardrailed
agents (`TechnologySignalAgent`, `MarketSignalAgent`): the sanitized,
parsed LLM response is validated with `min_confidence = 0.3`;
`ValidationError` is caught and replaced by the fixed fallback; any
other exception propagates (`none`).
-/
def guarded_compute_signal (name : String) (resp : RawJson) : Option DimensionScore :=
  match validate_dimension_score resp name (3/10) with
  | .ok ds => some ds
  | .vErr _ => some (fallbackScore name)
  | .uncaught => none

/-- Read a JSON array of strings (pydantic's `List[str]` field type);
any non-string element makes the pydantic constructor raise. -/
def strListOfJson : List JsonVal → Option (List String)
  | [] => some []
  | .jstr s :: rest => (strListOfJson rest).map (s :: ·)
  | _ :: _ => none

/--
The deterministic tail of `compute_signal` for the four non-guardrailed
agents (`ProductLandscapeAgent`, `RegulatorySignalAgent`,
`StrategicLeverageAgent`, `TimingAgent`): the parsed response is mapped
straight onto the pydantic `DimensionScore` constructor with
`aggregate_score` defaulting to `2.5`, `sources` defaulting to a fixed
one-element list, `notes` defaulting to `""` and confidence to the
pydantic default `0.5`; every failure propagates uncaught (`none`).
-/
def plain_compute_signal (data : List (String × JsonVal)) (name : String)
    (defaultSources : List JsonVal) : Option DimensionScore :=
  match pyFloat (dictGet data ("aggregate_score") (.jnum (5/2))) with
  | none => none
  | some s =>
    match dictGet data ("sources") (.jarr defaultSources) with
    | .jarr xs =>
      match strListOfJson xs with
      | none => none
      | some sources =>
        match dictGet data ("notes") (.jstr "") with
        | .jstr notes => mkDimensionScore s (s / 5 * 100) sources name notes (1/2)
        | _ => none
    | _ => none

/--
Fixed-point decimal rendering of a rational, modelling Python's
`f-string` `:.1f` / `:.2f` formatting (rounding ties, which never occur
in the claims, follow Mathlib's `round`).
-/
def fmtFixed (d : ℕ) (q : ℚ) : String :=
  let n : ℤ := round (q * 10 ^ d)
  let sign := if n < 0 then ("-") else ("")
  let digits := toString n.natAbs
  let padded := (List.replicate (d + 1 - digits.length) '0').asString ++ digits
  let k := padded.length - d
  sign ++ (padded.toList.take k).asString ++ (".") ++ (padded.toList.drop k).asString

/-- Python `str.title()` on the alphabetic runs of a character list. -/
def pyTitle (l : List Char) : List Char :=
  (l.foldl (fun (acc : List Char × Bool) c =>
    if c.isAlpha then
      ((if acc.2 then c.toLower else c.toUpper) :: acc.1, true)
    else (c :: acc.1, false)) ([], false)).1.reverse

/-- `SWOTAgent._format_dimension`: underscores to spaces, then `title()`. -/
def format_dimension (d : String) : String :=
  (pyTitle (d.toList.map fun c => if c = '_' then ' ' else c)).asString

/-- `models.SWOT` record (the four category lists). -/
structure SWOT where
  strengths : List String
  weaknesses : List String
  opportunities : List String
  threats : List String
deriving DecidableEq, Repr

/-- Association-list lookup on a string-to-number map (Python dict access). -/
def qLookup (m : List (String × ℚ)) (key : String) : Option ℚ :=
  match m with
  | [] => none
  | (k, v) :: rest => if key = k then some v else qLookup rest key

/-- Dictionary read with default on the normalized-scores map
(Python `dict.get(key, default)`). -/
def scoreGet (m : List (String × ℚ)) (key : String) (dflt : ℚ) : ℚ :=
  (qLookup m key).getD dflt

/-- The strength/weakness entry string built by `SWOTAgent.generate_swot`. -/
def dimensionEntry (d : String) (score : ℚ) : String :=
  format_dimension d ++ (": ") ++ fmtFixed 1 score ++ ("/100")

/-- The strengths list built by `SWOTAgent.generate_swot`: one entry
per dimension with normalized score at least 70, in map order. -/
def swotStrengths (normalized_scores : List (String × ℚ)) : List String :=
  (normalized_scores.filter fun p => 70 ≤ p.2).map fun p => dimensionEntry p.1 p.2

/-- The weaknesses list built by `SWOTAgent.generate_swot`: one entry
per dimension with normalized score at most 40, in map order. -/
def swotWeaknesses (normalized_scores : List (String × ℚ)) : List String :=
  (normalized_scores.filter fun p => p.2 ≤ 40).map fun p => dimensionEntry p.1 p.2

/-- The opportunities list built by `SWOTAgent.generate_swot`: two
independent checks on `market_gravity` and `timing` (missing keys
default to 0 and never trigger). -/
def swotOpportunities (normalized_scores : List (String × ℚ)) : List String :=
  (if 65 ≤ scoreGet normalized_scores ("market_gravity") 0 then
    [("Strong market potential (") ++ fmtFixed 1 (scoreGet normalized_scores ("market_gravity") 0) ++ ("/100)")]
  else []) ++
  (if 65 ≤ scoreGet normalized_scores ("timing") 0 then
    [("Favorable timing (") ++ fmtFixed 1 (scoreGet normalized_scores ("timing") 0) ++ ("/100)")]
  else [])

/-- The threats list built by `SWOTAgent.generate_swot`: two
independent checks on `regulatory_alignment` and `white_space` (missing
keys default to 100 and never trigger). -/
def swotThreats (normalized_scores : List (String × ℚ)) : List String :=
  (if scoreGet normalized_scores ("regulatory_alignment") 100 ≤ 40 then
    [("Regulatory friction (") ++ fmtFixed 1 (scoreGet normalized_scores ("regulatory_alignment") 100) ++ ("/100)")]
  else []) ++
  (if scoreGet normalized_scores ("white_space") 100 ≤ 40 then
    [("Crowded market (") ++ fmtFixed 1 (scoreGet normalized_scores ("white_space") 100) ++ ("/100)")]
  else [])

/--
`SWOTAgent.generate_swot` (`swot_agent.py`) followed by the pydantic
`SWOT` model validation (`models.py`, `validate_swot`): threshold rules
build the four lists, and pydantic raises (`Except.error`) when all
four are empty.
-/
def generate_swot (normalized_scores : List (String × ℚ)) : Except String SWOT :=
  if swotStrengths normalized_scores ≠ [] ∨ swotWeaknesses normalized_scores ≠ [] ∨
      swotOpportunities normalized_scores ≠ [] ∨ swotThreats normalized_scores ≠ [] then
    .ok ⟨swotStrengths normalized_scores, swotWeaknesses normalized_scores,
      swotOpportunities normalized_scores, swotThreats normalized_scores⟩
  else
    .error ("At least one SWOT category must have content")

/-- The fixed `SCORING_WEIGHTS` constant (`models.py`). -/
def SCORING_WEIGHTS : List (String × ℚ) :=
  [(("tech_momentum"), 0.20), (("market_gravity"), 0.25), (("white_space"), 0.20),
   (("strategic_leverage"), 0.15), (("timing"), 0.10), (("regulatory_alignment"), 0.10)]

/-- One entry of the evidence map built by `ScoringAgent.calculate_prs`. -/
structure EvidenceEntry where
  sources : List String
  agent : String
  notes : String
deriving DecidableEq, Repr

/-- The four values returned by `ScoringAgent.calculate_prs`. -/
structure PRSResult where
  prs : ℚ
  raw_scores : List (String × ℚ)
  normalized_scores : List (String × ℚ)
  evidence_map : List (String × EvidenceEntry)
deriving DecidableEq, Repr

/--
`ScoringAgent.calculate_prs` (`scoring_agent.py`): collect the six raw
scores, normalize each to `[0,100]`, form the weighted sum over
`SCORING_WEIGHTS`, and build the evidence map.  (The Python dict index
`normalized_scores[dimension]` always succeeds because the two maps are
built over the same six keys; the `getD 0` default is never taken.)
-/
def calculate_prs (tech_momentum market_gravity white_space strategic_leverage
    timing regulatory_alignment : DimensionScore) : PRSResult :=
  let raw_scores : List (String × ℚ) :=
    [(("tech_momentum"), tech_momentum.raw_score),
     (("market_gravity"), market_gravity.raw_score),
     (("white_space"), white_space.raw_score),
     (("strategic_leverage"), strategic_leverage.raw_score),
     (("timing"), timing.raw_score),
     (("regulatory_alignment"), regulatory_alignment.raw_score)]
  let normalized_scores := raw_scores.map fun p => (p.1, p.2 / 5 * 100)
  let prs := (SCORING_WEIGHTS.map fun p => scoreGet normalized_scores p.1 0 * p.2).sum
  let evidence_map : List (String × EvidenceEntry) :=
    [(("tech_momentum"), ⟨tech_momentum.sources, tech_momentum.agent, tech_momentum.notes⟩),
     (("market_gravity"), ⟨market_gravity.sources, market_gravity.agent, market_gravity.notes⟩),
     (("white_space"), ⟨white_space.sources, white_space.agent, white_space.notes⟩),
     (("strategic_leverage"), ⟨strategic_leverage.sources, strategic_leverage.agent, strategic_leverage.notes⟩),
     (("timing"), ⟨timing.sources, timing.agent, timing.notes⟩),
     (("regulatory_alignment"), ⟨regulatory_alignment.sources, regulatory_alignment.agent, regulatory_alignment.notes⟩)]
  ⟨prs, raw_scores, normalized_scores, evidence_map⟩

/--
`OutputValidator.validate_multiple_scores` (`validation.py`): collects
issue strings for too few dimensions, low average confidence, and the
over-confidence heuristic, and returns `(issues == [], issues)`.  A
total function: it never raises.
-/
def validate_multiple_scores (scores : List DimensionScore)
    (required_dimensions : ℕ) : Bool × List String :=
  let issues1 :=
    if scores.length < required_dimensions then
      [("Only ") ++ toString scores.length ++ (" dimensions provided, expected ") ++
        toString required_dimensions]
    else []
  let avg_confidence : ℚ :=
    if scores = [] then 0 else (scores.map (·.confidence)).sum / scores.length
  let issues2 :=
    if avg_confidence < 3/10 then
      [("Average confidence ") ++ fmtFixed 2 avg_confidence ++ (" is very low (< 0.3)")]
    else []
  let issues3 := scores.filterMap fun s =>
    if 95 < s.normalized_score ∧ s.confidence < 3/5 then
      some (s.agent ++ (": High score ") ++ fmtFixed 1 s.normalized_score ++
        (" with low confidence ") ++ fmtFixed 2 s.confidence)
    else none
  let issues := issues1 ++ issues2 ++ issues3
  (issues.length = 0, issues)

/-- The average confidence as computed by `validate_multiple_scores`. -/
def avgConfidence (scores : List DimensionScore) : ℚ :=
  if scores = [] then 0 else (scores.map (·.confidence)).sum / scores.length

/-- The reviewer's three-valued confidence label. -/
inductive ConfLevel where
  | low
  | medium
  | high
deriving DecidableEq, Repr

/-- `models.PatentRelevanceOutput` (the fields the deterministic core
determines; the hooks-derived `usage_summary` telemetry is omitted). -/
structure PatentRelevanceOutput where
  idea_id : String
  dimension_scores : List (String × ℚ)
  normalized_scores : List (String × ℚ)
  patent_relevance_score : ℚ
  swot : SWOT
  confidence : ConfLevel
  evidence_map : List (String × EvidenceEntry)
  flags : List String
deriving DecidableEq, Repr

/-- The pydantic constructor of `PatentRelevanceOutput`: the
`validate_prs` validator requires the score to lie in `[0,100]`. -/
def mkPatentRelevanceOutput (idea_id : String) (dimension_scores normalized_scores : List (String × ℚ))
    (prs : ℚ) (swot : SWOT) (confidence : ConfLevel)
    (evidence_map : List (String × EvidenceEntry)) (flags : List String) :
    Option PatentRelevanceOutput :=
  if 0 ≤ prs ∧ prs ≤ 100 then
    some ⟨idea_id, dimension_scores, normalized_scores, prs, swot, confidence, evidence_map, flags⟩
  else none

/--
The deterministic tail of `PatentRelevancePipeline.evaluate`
(`pipeline.py`), from the six collected signal scores and the
Reviewer's `(confidence, flags)` output to the assembled result: the
batch validation is computed (its issues are only printed and sent to
hooks), the PRS is computed, the SWOT is generated (a pydantic failure
there aborts the evaluation, `none`), and the final record is built
with the Reviewer's confidence and flags.
-/
def pipeline_assemble (idea_id : String)
    (tech_score market_score product_score regulatory_score strategic_score timing_score : DimensionScore)
    (confidence : ConfLevel) (flags : List String) : Option PatentRelevanceOutput :=
  let _issues := validate_multiple_scores
    [tech_score, market_score, product_score, regulatory_score, strategic_score, timing_score] 6
  let r := calculate_prs tech_score market_score product_score strategic_score
    timing_score regulatory_score
  match generate_swot r.normalized_scores with
  | .error _ => none
  | .ok swot =>
    mkPatentRelevanceOutput idea_id r.raw_scores r.normalized_scores r.prs swot
      confidence r.evidence_map flags

/-- The `aggregate_score` value as the validator reads it
(missing key defaults to `0`). -/
def scoreOf (data : List (String × JsonVal)) : Option ℚ :=
  pyFloat (dictGet data ("aggregate_score") (.jnum 0))

/-- The `confidence` value as the validator reads it
(missing key defaults to `0.5`). -/
def confOf (data : List (String × JsonVal)) : Option ℚ :=
  pyFloat (dictGet data ("confidence") (.jnum (1/2)))

/-- Amended claim condition: the `aggregate_score` value (defaulting to
`0` when missing) is non-numeric or outside `[0,5]`. -/
def scoreBad (data : List (String × JsonVal)) : Prop :=
  match scoreOf data with
  | none => True
  | some s => s < 0 ∨ 5 < s

/-- Amended claim condition: `sources` (defaulting to `[]` when
missing) is not a list, is empty, or has no non-empty string element. -/
def sourcesBad (data : List (String × JsonVal)) : Prop :=
  match dictGet data ("sources") (.jarr []) with
  | .jarr xs => xs.length = 0 ∨ extractSources xs = []
  | _ => True

/-- Amended claim condition: `notes` (defaulting to `""` when missing)
is not a string or is shorter than 5 characters after trimming. -/
def notesBad (data : List (String × JsonVal)) : Prop :=
  match dictGet data ("notes") (.jstr "") with
  | .jstr notes => (pyStripStr notes).length < 5
  | _ => True

/-- Amended claim condition: the `confidence` value (defaulting to
`0.5` when missing) is numeric and either below `min_confidence` or
outside the pydantic bound `[0,1]`. -/
def confBad (data : List (String × JsonVal)) (mc : ℚ) : Prop :=
  match confOf data with
  | some c => c < mc ∨ c < 0 ∨ 1 < c
  | none => False

/-- Amended claim: the inputs on which `validate_dimension_score`
raises `ValidationError`. -/
def rejectCond : RawJson → ℚ → Prop
  | .unparseable, _ => True
  | .parsed data, mc => scoreBad data ∨ sourcesBad data ∨ notesBad data ∨ confBad data mc

/-- Amended claim: the inputs on which `validate_dimension_score`
raises an uncaught exception (present but non-numeric `confidence`,
reached only when all earlier checks pass). -/
def uncaughtCond : RawJson → Prop
  | .unparseable => False
  | .parsed data => ¬ scoreBad data ∧ ¬ sourcesBad data ∧ ¬ notesBad data ∧ confOf data = none

/-- The backtick character. -/
def btChar : Char := Char.ofNat 96

/-- The triple-backtick fence, as a character list. -/
def bt : List Char := [btChar, btChar, btChar]

/-- Does the list start with a triple backtick? -/
def startsBT : List Char → Bool
  | a :: b :: c :: _ => a = btChar && b = btChar && c = btChar
  | _ => false

/-- Does the list contain a triple backtick anywhere? -/
def hasBT : List Char → Bool
  | [] => false
  | c :: rest => startsBT (c :: rest) || hasBT rest

/-- Python `str.split("```")`: the chunks between non-overlapping
left-to-right occurrences of the triple backtick. -/
def splitBT : List Char → List (List Char)
  | [] => [[]]
  | c :: rest =>
    if startsBT (c :: rest) then
      [] :: splitBT (rest.drop 2)
    else
      match splitBT rest with
      | chunk :: chunks => (c :: chunk) :: chunks
      | [] => [[c]]
termination_by l => l.length
decreasing_by
  · simp
    omega
  · simp

/--
`sanitize_llm_output` (`validation.py`), on character lists: strip the
raw text; if it starts with a code fence, take the chunk between the
first two fences (`split("```")[1]`) and drop a leading `json` tag;
drop a trailing fence; strip again.
-/
def sanitize_llm_output (raw_text : List Char) : List Char :=
  let text := pyStrip raw_text
  let text :=
    if bt.isPrefixOf text then
      let t := (splitBT text).getD 1 []
      if (("json").toList).isPrefixOf t then t.drop 4 else t
    else text
  let text := if bt.isSuffixOf text then text.take (text.length - 3) else text
  pyStrip text

/-! Helper lemmas about the Python string-strip model. -/

theorem rstrip_eq_rdropWhile (l : List Char) : rstrip l = l.rdropWhile isPySpace := rfl

theorem lstrip_idem (l : List Char) : lstrip (lstrip l) = lstrip l :=
  List.dropWhile_idempotent _ _

theorem rstrip_idem (l : List Char) : rstrip (rstrip l) = rstrip l := by
  rw [rstrip_eq_rdropWhile, rstrip_eq_rdropWhile]
  exact List.rdropWhile_idempotent _ _

/-- If `dropWhile` leaves a non-empty list unchanged, its head fails the
predicate. -/
theorem dropWhile_fixed_head {α : Type} {p : α → Bool} {c : α} {cs : List α}
    (h : List.dropWhile p (c :: cs) = c :: cs) : p c = false := by
  by_cases hc : p c = true
  · rw [List.dropWhile_cons, if_pos hc] at h
    have hlen : (List.dropWhile p cs).length ≤ cs.length :=
      (List.dropWhile_sublist p).length_le
    have := congrArg List.length h
    simp at this
    omega
  · simpa using hc

/-- A conditional singleton list is empty exactly when the condition
fails. -/
theorem ite_singleton_eq_nil {c : Prop} [Decidable c] (x : String) :
    ((if c then [x] else []) = []) ↔ ¬ c := by
  split_ifs with hc <;> simp [hc]

/-- A conditional `some` is `none` exactly when the condition fails. -/
theorem ite_some_eq_none {α : Type} {c : Prop} [Decidable c] (x : α) :
    ((if c then some x else none) = none) ↔ ¬ c := by
  split_ifs with hc <;> simp [hc]

/-- Left-stripping a list already right-stripped keeps it right-stripped. -/
theorem rstrip_lstrip_of_rstrip_fixed (x : List Char) (hx : rstrip x = x) :
    rstrip (lstrip x) = lstrip x := by
  obtain ⟨t, ht⟩ : List.dropWhile isPySpace x <:+ x := List.dropWhile_suffix _
  have hrevx : List.dropWhile isPySpace x.reverse = x.reverse := by
    have h2 := congrArg List.reverse hx
    rw [rstrip, List.reverse_reverse] at h2
    exact h2
  show (List.dropWhile isPySpace (lstrip x).reverse).reverse = lstrip x
  simp only [lstrip]
  rcases hc : (List.dropWhile isPySpace x).reverse with _ | ⟨c, cs⟩
  · have hnil : List.dropWhile isPySpace x = [] := by
      simpa using congrArg List.reverse hc
    simp [hnil]

  · have hxrev : x.reverse = c :: (cs ++ t.reverse) := by
      conv_lhs => rw [← ht]
      rw [List.reverse_append, hc]
      rfl
    have hspc : isPySpace c = false := by
      exact dropWhile_fixed_head (by rw [← hxrev]; exact hrevx)
    rw [List.dropWhile_cons, if_neg (by simp [hspc]), ← hc, List.reverse_reverse]

theorem rstrip_lstrip_rstrip (l : List Char) :
    rstrip (lstrip (rstrip l)) = lstrip (rstrip l) :=
  rstrip_lstrip_of_rstrip_fixed (rstrip l) (rstrip_idem l)

theorem pyStrip_idem (l : List Char) : pyStrip (pyStrip l) = pyStrip l := by
  unfold pyStrip
  rw [rstrip_lstrip_rstrip, lstrip_idem]

theorem pyStripStr_idem (s : String) : pyStripStr (pyStripStr s) = pyStripStr s := by
  unfold pyStripStr
  rw [List.toList_asString, pyStrip_idem]

/-- Every string produced by `extractSources` is already stripped and
non-empty. -/
theorem mem_extractSources {xs : List JsonVal} {x : String}
    (hx : x ∈ extractSources xs) : pyStripStr x = x ∧ x ≠ "" := by
  unfold extractSources at hx
  obtain ⟨v, _, hv⟩ := List.mem_filterMap.mp hx
  rcases v with _ | s | _ | _ | _ | _ <;> simp at hv
  rcases hv with ⟨hne, hs⟩
  subst hs
  exact ⟨pyStripStr_idem s, hne⟩

/--
Master classification of `validate_dimension_score`: which inputs make
it raise `ValidationError`, which make it crash uncaught, and the
normalization equation satisfied by every score it returns.
-/
theorem validate_classify (raw : RawJson) (a : String) (mc : ℚ) :
    ((∃ m, validate_dimension_score raw a mc = .vErr m) ↔ rejectCond raw mc) ∧
    (validate_dimension_score raw a mc = .uncaught ↔ uncaughtCond raw) ∧
    (∀ ds, validate_dimension_score raw a mc = .ok ds →
      ds.normalized_score = ds.raw_score / 5 * 100) := by
  rcases raw with _ | data
  · refine ⟨?_, ?_, ?_⟩ <;> simp [validate_dimension_score, rejectCond, uncaughtCond]
  rcases hf : scoreOf data with _ | score
  · have hv : validate_dimension_score (.parsed data) a mc =
        .vErr (a ++ (": Invalid score value")) := by
      simp only [validate_dimension_score, show pyFloat (dictGet data ("aggregate_score")
        (.jnum 0)) = none from hf]
    refine ⟨?_, ?_, ?_⟩ <;>
      simp [hv, rejectCond, uncaughtCond, scoreBad, hf]
  have hfp : pyFloat (dictGet data ("aggregate_score") (.jnum 0)) = some score := hf
  by_cases hs : score < 0 ∨ 5 < score
  · have hcond : ¬ (0 ≤ score ∧ score ≤ 5) := by
      rcases hs with h1 | h1
      · intro hcon; exact absurd hcon.1 (not_le.mpr h1)
      · intro hcon; exact absurd hcon.2 (not_le.mpr h1)
    have hv : validate_dimension_score (.parsed data) a mc =
        .vErr (a ++ (": Score out of range [0-5]")) := by
      simp only [validate_dimension_score, hfp]
      rw [if_pos hcond]
    refine ⟨?_, ?_, ?_⟩ <;>
      simp [hv, rejectCond, uncaughtCond, scoreBad, hf, hs]
  push_neg at hs
  have hcond : ¬ ¬ (0 ≤ score ∧ score ≤ 5) := not_not_intro ⟨hs.1, hs.2⟩
  have hScoreOK : ¬ scoreBad data := by
    simp only [scoreBad, hf, not_or, not_lt]
    exact ⟨hs.1, hs.2⟩
  rcases hsrc : dictGet data ("sources") (.jarr []) with _ | _ | xs | _ | _ | _
  all_goals try {
    have hv : validate_dimension_score (.parsed data) a mc =
        .vErr (a ++ (": No sources provided")) := by
      simp only [validate_dimension_score, hfp]
      rw [if_neg hcond]
      simp only [hsrc]
    refine ⟨?_, ?_, ?_⟩ <;>
      simp [hv, rejectCond, uncaughtCond, sourcesBad, hsrc]
  }
  by_cases hxs : xs.length = 0
  · have hv : validate_dimension_score (.parsed data) a mc =
        .vErr (a ++ (": No sources provided")) := by
      simp only [validate_dimension_score, hfp]
      rw [if_neg hcond]
      simp only [hsrc]
      rw [if_pos hxs]
    refine ⟨?_, ?_, ?_⟩ <;>
      simp [hv, rejectCond, uncaughtCond, sourcesBad, hsrc, hxs]
  by_cases hes : extractSources xs = []
  · have hv : validate_dimension_score (.parsed data) a mc =
        .vErr (a ++ (": All sources are empty strings")) := by
      simp only [validate_dimension_score, hfp]
      rw [if_neg hcond]
      simp only [hsrc]
      rw [if_neg hxs, if_pos hes]
    refine ⟨?_, ?_, ?_⟩ <;>
      simp [hv, rejectCond, uncaughtCond, sourcesBad, hsrc, hxs, hes]
  have hSourcesOK : ¬ sourcesBad data := by
    simp only [sourcesBad, hsrc, not_or]
    exact ⟨hxs, hes⟩
  rcases hn : dictGet data ("notes") (.jstr "") with _ | notes | _ | _ | _ | _
  all_goals try {
    have hv : validate_dimension_score (.parsed data) a mc =
        .vErr (a ++ (": Notes too brief or missing (min 5 chars)")) := by
      simp only [validate_dimension_score, hfp]
      rw [if_neg hcond]
      simp only [hsrc]
      rw [if_neg hxs, if_neg hes]
      simp only [hn]
    refine ⟨?_, ?_, ?_⟩ <;>
      simp [hv, rejectCond, uncaughtCond, notesBad, hn, hScoreOK, hSourcesOK]
  }
  by_cases hnl : (pyStripStr notes).length < 5
  · have hv : validate_dimension_score (.parsed data) a mc =
        .vErr (a ++ (": Notes too brief or missing (min 5 chars)")) := by
      simp only [validate_dimension_score, hfp]
      rw [if_neg hcond]
      simp only [hsrc]
      rw [if_neg hxs, if_neg hes]
      simp only [hn]
      rw [if_pos hnl]
    refine ⟨?_, ?_, ?_⟩ <;>
      simp [hv, rejectCond, uncaughtCond, notesBad, hn, hnl]
  have hNotesOK : ¬ notesBad data := by
    simp only [notesBad, hn]
    exact hnl
  rcases hc : confOf data with _ | conf
  · have hv : validate_dimension_score (.parsed data) a mc = .uncaught := by
      simp only [validate_dimension_score, hfp]
      rw [if_neg hcond]
      simp only [hsrc]
      rw [if_neg hxs, if_neg hes]
      simp only [hn]
      rw [if_neg hnl]
      simp only [show pyFloat (dictGet data ("confidence") (.jnum (1/2))) = none from hc]
    refine ⟨?_, ?_, ?_⟩ <;>
      simp [hv, rejectCond, uncaughtCond, confBad, hc, hScoreOK, hSourcesOK, hNotesOK]
  have hcp : pyFloat (dictGet data ("confidence") (.jnum (1/2))) = some conf := hc
  by_cases hcm : conf < mc
  · have hv : validate_dimension_score (.parsed data) a mc =
        .vErr (a ++ (": Confidence below minimum")) := by
      simp only [validate_dimension_score, hfp]
      rw [if_neg hcond]
      simp only [hsrc]
      rw [if_neg hxs, if_neg hes]
      simp only [hn]
      rw [if_neg hnl]
      simp only [hcp]
      rw [if_pos hcm]
    refine ⟨?_, ?_, ?_⟩ <;>
      simp [hv, rejectCond, uncaughtCond, confBad, hc, hcm]
  by_cases hcb : 0 ≤ conf ∧ conf ≤ 1
  · have hmk : mkDimensionScore score (score / 5 * 100) (extractSources xs) a
        (pyStripStr notes) conf =
        some ⟨score, score / 5 * 100, extractSources xs, a, pyStripStr notes, conf⟩ := by
      rw [mkDimensionScore, if_pos]
      refine ⟨hs.1, hs.2, by linarith [hs.1], by linarith [hs.2], hcb.1, hcb.2, ?_, ?_, ?_⟩
      · exact List.length_pos.mpr hes
      · intro x hx
        rw [(mem_extractSources hx).1]
        exact (mem_extractSources hx).2
      · rw [pyStripStr_idem]
        omega
    have hv : validate_dimension_score (.parsed data) a mc =
        .ok ⟨score, score / 5 * 100, extractSources xs, a, pyStripStr notes, conf⟩ := by
      simp only [validate_dimension_score, hfp]
      rw [if_neg hcond]
      simp only [hsrc]
      rw [if_neg hxs, if_neg hes]
      simp only [hn]
      rw [if_neg hnl]
      simp only [hcp]
      rw [if_neg hcm]
      simp only [hmk]
    have hConfOK : ¬ confBad data mc := by
      simp only [confBad, hc, not_or, not_lt]
      exact ⟨le_of_not_lt hcm, hcb.1, hcb.2⟩
    refine ⟨?_, ?_, ?_⟩
    · simp [hv, rejectCond, hScoreOK, hSourcesOK, hNotesOK, hConfOK]
    · simp [hv, uncaughtCond, hc]
    · intro ds hds
      rw [hv] at hds
      cases hds
      rfl
  · have hmk : mkDimensionScore score (score / 5 * 100) (extractSources xs) a
        (pyStripStr notes) conf = none := by
      rw [mkDimensionScore, if_neg]
      intro hcon
      exact hcb ⟨hcon.2.2.2.2.1, hcon.2.2.2.2.2.1⟩
    have hv : validate_dimension_score (.parsed data) a mc =
        .vErr (a ++ (": Failed to create DimensionScore")) := by
      simp only [validate_dimension_score, hfp]
      rw [if_neg hcond]
      simp only [hsrc]
      rw [if_neg hxs, if_neg hes]
      simp only [hn]
      rw [if_neg hnl]
      simp only [hcp]
      rw [if_neg hcm]
      simp only [hmk]
    have hConfBad : conf < mc ∨ conf < 0 ∨ 1 < conf := by
      rcases not_and_or.mp hcb with h1 | h1
      · exact Or.inr (Or.inl (not_le.mp h1))
      · exact Or.inr (Or.inr (not_le.mp h1))
    refine ⟨?_, ?_, ?_⟩ <;>
      simp [hv, rejectCond, uncaughtCond, confBad, hc, hConfBad, hScoreOK, hSourcesOK, hNotesOK]

/-! Lemmas about the triple-backtick scanner and splitter. -/

theorem startsBT_false_of_ne {c : Char} (hc : c ≠ btChar) (x : List Char) :
    startsBT (c :: x) = false := by
  rcases x with _ | ⟨d, _ | ⟨e, x2⟩⟩ <;> simp [startsBT, hc]

theorem startsBT_three (a b c : Char) (x y : List Char) :
    startsBT (a :: b :: c :: x) = startsBT (a :: b :: c :: y) := by
  simp [startsBT]

theorem hasBT_cons (c : Char) (rest : List Char) :
    hasBT (c :: rest) = (startsBT (c :: rest) || hasBT rest) := rfl

theorem hasBT_append_right {b : List Char} (hb : hasBT b = true) (a : List Char) :
    hasBT (a ++ b) = true := by
  induction a with
  | nil => simpa
  | cons c a' ih => rw [List.cons_append, hasBT_cons, ih, Bool.or_true]

theorem startsBT_append {l : List Char} (h : startsBT l = true) (b : List Char) :
    startsBT (l ++ b) = true := by
  rcases l with _ | ⟨x, _ | ⟨y, _ | ⟨z, t⟩⟩⟩ <;> simp_all [startsBT]

theorem hasBT_append_left {a : List Char} (ha : hasBT a = true) (b : List Char) :
    hasBT (a ++ b) = true := by
  induction a with
  | nil => exact absurd ha (by simp [hasBT])
  | cons c a' ih =>
    rw [hasBT_cons] at ha
    rcases Bool.or_eq_true_iff.mp ha with h1 | h1
    · have h2 := startsBT_append h1 b
      rw [List.cons_append] at h2 ⊢
      rw [hasBT_cons, h2, Bool.true_or]
    · rw [List.cons_append, hasBT_cons, ih h1, Bool.or_true]

theorem hasBT_false_of_append_left {a b : List Char} (h : hasBT (a ++ b) = false) :
    hasBT a = false := by
  cases hval : hasBT a with
  | false => rfl
  | true => exact absurd (hasBT_append_left hval b) (by simp [h])

theorem hasBT_false_of_append_right {a b : List Char} (h : hasBT (a ++ b) = false) :
    hasBT b = false := by
  cases hval : hasBT b with
  | false => rfl
  | true => exact absurd (hasBT_append_right hval a) (by simp [h])

theorem noTick_hasBT_append {a : List Char} (ha : ∀ c ∈ a, c ≠ btChar) (b : List Char) :
    hasBT (a ++ b) = hasBT b := by
  induction a with
  | nil => rfl
  | cons c a' ih =>
    rw [List.cons_append, hasBT_cons, startsBT_false_of_ne (ha c (by simp)) _, Bool.false_or]
    exact ih fun x hx => ha x (by simp [hx])

theorem hasBT_append_single {p : List Char} {c : Char} (hc : c ≠ btChar) :
    hasBT (p ++ [c]) = hasBT p := by
  induction p with
  | nil => simp [hasBT, startsBT, hc]
  | cons d p' ih =>
    rw [List.cons_append, hasBT_cons, hasBT_cons d p', ih]
    congr 1
    rcases p' with _ | ⟨e, _ | ⟨f, t⟩⟩
    · simp [startsBT, hc]
    · simp [startsBT, hc]
    · simp [startsBT]

theorem splitBT_bt (s : List Char) :
    splitBT (btChar :: btChar :: btChar :: s) = [] :: splitBT s := by
  simp [splitBT, startsBT]

theorem splitBT_of_hasBT_false {l : List Char} (h : hasBT l = false) : splitBT l = [l] := by
  induction l with
  | nil => simp [splitBT]
  | cons c rest ih =>
    rw [hasBT_cons] at h
    obtain ⟨h1, h2⟩ := Bool.or_eq_false_iff.mp h
    simp only [splitBT]
    rw [if_neg (by simp [h1]), ih h2]

theorem splitBT_append_bt (s : List Char) : ∀ l, hasBT l = false →
    l.getLast? ≠ some btChar →
    splitBT (l ++ btChar :: btChar :: btChar :: s) = l :: splitBT s := by
  intro l
  induction l with
  | nil =>
    intro _ _
    simpa using splitBT_bt s
  | cons c rest ih =>
    intro h hlast
    rw [hasBT_cons] at h
    obtain ⟨h1, h2⟩ := Bool.or_eq_false_iff.mp h
    have hstart : startsBT (c :: (rest ++ btChar :: btChar :: btChar :: s)) = false := by
      rcases rest with _ | ⟨r1, _ | ⟨r2, rt⟩⟩
      · have hc : c ≠ btChar := by
          intro hcon
          apply hlast
          rw [hcon]
          rfl
        simp [startsBT, hc]
      · have hr : r1 ≠ btChar := by
          intro hcon
          apply hlast
          rw [hcon]
          rfl
        simp [startsBT, hr]
      · calc startsBT (c :: ((r1 :: r2 :: rt) ++ btChar :: btChar :: btChar :: s))
            = startsBT (c :: r1 :: r2 :: (rt ++ btChar :: btChar :: btChar :: s)) := rfl
          _ = startsBT (c :: r1 :: r2 :: rt) := startsBT_three _ _ _ _ _
          _ = false := h1
    have hrec : splitBT (rest ++ btChar :: btChar :: btChar :: s) = rest :: splitBT s := by
      apply ih h2
      rcases rest with _ | ⟨r1, rt⟩
      · simp
      · intro hcon
        apply hlast
        rw [List.getLast?_cons_cons]
        exact hcon
    rw [List.cons_append]
    simp only [splitBT]
    rw [if_neg (by simp [hstart]), hrec]

/-! Lemmas about stripping around fences. -/

theorem dropWhile_append_all {p : Char → Bool} {a : List Char}
    (ha : ∀ c ∈ a, p c = true) (b : List Char) :
    List.dropWhile p (a ++ b) = List.dropWhile p b := by
  have h0 : List.dropWhile p a = [] := List.dropWhile_eq_nil_iff.mpr ha
  rw [List.dropWhile_append, h0]
  simp

theorem rstrip_append_ws {x w : List Char} (hw : ∀ c ∈ w, isPySpace c = true) :
    rstrip (x ++ w) = rstrip x := by
  unfold rstrip
  rw [List.reverse_append, dropWhile_append_all (by simpa using hw)]

theorem pyStrip_sandwich (u x v : List Char) (h₁ : ∀ c ∈ u, isPySpace c = true)
    (h₂ : ∀ c ∈ v, isPySpace c = true) :
    pyStrip (u ++ x ++ v) = pyStrip x := by
  unfold pyStrip
  rw [rstrip_append_ws h₂]
  unfold rstrip lstrip
  rw [List.reverse_append, List.dropWhile_append]
  by_cases hx : (List.dropWhile isPySpace x.reverse).isEmpty = true
  · have hx' : List.dropWhile isPySpace x.reverse = [] := List.isEmpty_iff.mp hx
    have hu1 : List.dropWhile isPySpace u.reverse = [] :=
      List.dropWhile_eq_nil_iff.mpr (by simpa using h₁)
    rw [if_pos hx, hu1, hx']
  · rw [if_neg hx, List.reverse_append, List.reverse_reverse]
    exact dropWhile_append_all h₁ _

theorem not_bt_prefix_of_hasBT_false {l : List Char} (h : hasBT l = false) :
    ¬ bt <+: l := by
  rintro ⟨s, hs⟩
  have hbt : hasBT (bt ++ s) = true := by
    rw [show bt ++ s = btChar :: btChar :: btChar :: s from rfl, hasBT_cons]
    simp [startsBT]
  rw [hs] at hbt
  exact absurd hbt (by simp [h])

theorem not_bt_suffix_of_hasBT_false {l : List Char} (h : hasBT l = false) :
    ¬ bt <:+ l := by
  rintro ⟨s, hs⟩
  have hbt : hasBT (s ++ bt) = true := by
    apply hasBT_append_right
    rw [show (bt : List Char) = btChar :: btChar :: btChar :: [] from rfl, hasBT_cons]
    simp [startsBT]
  rw [hs] at hbt
  exact absurd hbt (by simp [h])

theorem rstrip_prefix (l : List Char) : ∃ u, l = rstrip l ++ u := by
  obtain ⟨u, hu⟩ : List.dropWhile isPySpace l.reverse <:+ l.reverse :=
    List.dropWhile_suffix _
  refine ⟨u.reverse, ?_⟩
  have h2 := congrArg List.reverse hu
  rw [List.reverse_append, List.reverse_reverse] at h2
  exact h2.symm

theorem pyStrip_hasBT_false {l : List Char} (h : hasBT l = false) :
    hasBT (pyStrip l) = false := by
  have h1 : hasBT (rstrip l) = false := by
    obtain ⟨u, hu⟩ := rstrip_prefix l
    rw [hu] at h
    exact hasBT_false_of_append_left h
  obtain ⟨t, ht⟩ : lstrip (rstrip l) <:+ rstrip l := List.dropWhile_suffix _
  rw [← ht] at h1
  exact hasBT_false_of_append_right h1

theorem lstrip_cons_nospace {c : Char} {t : List Char} (hc : isPySpace c = false) :
    lstrip (c :: t) = c :: t := by
  simp [lstrip, List.dropWhile_cons, hc]

theorem rstrip_concat_nospace {y : List Char} {d : Char} (hd : isPySpace d = false) :
    rstrip (y ++ [d]) = y ++ [d] := by
  unfold rstrip
  rw [List.reverse_append]
  simp [List.dropWhile_cons, hd]

theorem btChar_not_space : isPySpace btChar = false := by decide

theorem pyStrip_fenced (mid : List Char) :
    pyStrip (bt ++ mid ++ bt) = bt ++ mid ++ bt := by
  have hshape : bt ++ mid ++ bt =
      (btChar :: btChar :: btChar :: mid ++ [btChar, btChar]) ++ [btChar] := by
    simp [bt]
  unfold pyStrip
  rw [hshape, rstrip_concat_nospace btChar_not_space,
    show (btChar :: btChar :: btChar :: mid ++ [btChar, btChar]) ++ [btChar] =
      btChar :: ((btChar :: btChar :: mid ++ [btChar, btChar]) ++ [btChar]) from rfl,
    lstrip_cons_nospace btChar_not_space]

/-! Claim theorems. -/

/--
C1: for any six `DimensionScore`s whose raw scores lie in `[0,5]`,
`calculate_prs` returns exactly the weighted sum of the six normalized
scores with weights 0.20/0.25/0.20/0.15/0.10/0.10, the weights sum to
1.0 (hence are within 1e-9 of 1.0), and the resulting PRS lies in
`[0,100]`.
-/
theorem calculate_prs_weighted_sum_in_range
    (t m w s ti r : DimensionScore)
    (ht : 0 ≤ t.raw_score ∧ t.raw_score ≤ 5)
    (hm : 0 ≤ m.raw_score ∧ m.raw_score ≤ 5)
    (hw : 0 ≤ w.raw_score ∧ w.raw_score ≤ 5)
    (hs : 0 ≤ s.raw_score ∧ s.raw_score ≤ 5)
    (hti : 0 ≤ ti.raw_score ∧ ti.raw_score ≤ 5)
    (hr : 0 ≤ r.raw_score ∧ r.raw_score ≤ 5) :
    (calculate_prs t m w s ti r).prs =
      t.raw_score / 5 * 100 * 0.20 + m.raw_score / 5 * 100 * 0.25 +
      w.raw_score / 5 * 100 * 0.20 + s.raw_score / 5 * 100 * 0.15 +
      ti.raw_score / 5 * 100 * 0.10 + r.raw_score / 5 * 100 * 0.10 ∧
    (SCORING_WEIGHTS.map Prod.snd).sum = 1 ∧
    |(SCORING_WEIGHTS.map Prod.snd).sum - 1| ≤ 1 / 1000000000 ∧
    0 ≤ (calculate_prs t m w s ti r).prs ∧ (calculate_prs t m w s ti r).prs ≤ 100 := by
  have hformula : (calculate_prs t m w s ti r).prs =
      t.raw_score / 5 * 100 * 0.20 + m.raw_score / 5 * 100 * 0.25 +
      w.raw_score / 5 * 100 * 0.20 + s.raw_score / 5 * 100 * 0.15 +
      ti.raw_score / 5 * 100 * 0.10 + r.raw_score / 5 * 100 * 0.10 := by
    simp [calculate_prs, SCORING_WEIGHTS, scoreGet, qLookup]
    ring
  refine ⟨hformula, by norm_num [SCORING_WEIGHTS], by norm_num [SCORING_WEIGHTS], ?_, ?_⟩
  · rw [hformula]
    obtain ⟨ht1, ht2⟩ := ht
    obtain ⟨hm1, hm2⟩ := hm
    obtain ⟨hw1, hw2⟩ := hw
    obtain ⟨hs1, hs2⟩ := hs
    obtain ⟨hti1, hti2⟩ := hti
    obtain ⟨hr1, hr2⟩ := hr
    nlinarith
  · rw [hformula]
    obtain ⟨ht1, ht2⟩ := ht
    obtain ⟨hm1, hm2⟩ := hm
    obtain ⟨hw1, hw2⟩ := hw
    obtain ⟨hs1, hs2⟩ := hs
    obtain ⟨hti1, hti2⟩ := hti
    obtain ⟨hr1, hr2⟩ := hr
    nlinarith

/-- C1 witness: the theorem applied to six fallback scores (raw 2.5),
whose PRS evaluates to 50. -/
theorem calculate_prs_witness :
    (calculate_prs (fallbackScore ("a")) (fallbackScore ("b")) (fallbackScore ("c"))
      (fallbackScore ("d")) (fallbackScore ("e")) (fallbackScore ("f"))).prs = 50 ∧
    0 ≤ (calculate_prs (fallbackScore ("a")) (fallbackScore ("b")) (fallbackScore ("c"))
      (fallbackScore ("d")) (fallbackScore ("e")) (fallbackScore ("f"))).prs := by
  obtain ⟨h1, _, _, h4, _⟩ := calculate_prs_weighted_sum_in_range
    (fallbackScore ("a")) (fallbackScore ("b")) (fallbackScore ("c"))
    (fallbackScore ("d")) (fallbackScore ("e")) (fallbackScore ("f"))
    (by norm_num [fallbackScore]) (by norm_num [fallbackScore]) (by norm_num [fallbackScore])
    (by norm_num [fallbackScore]) (by norm_num [fallbackScore]) (by norm_num [fallbackScore])
  refine ⟨?_, h4⟩
  rw [h1]
  norm_num [fallbackScore]

/--
C4: whenever `validate_dimension_score` raises `ValidationError` inside
a guardrailed agent, `compute_signal` returns exactly the fixed
fallback `DimensionScore` (raw 2.5, normalized 50, the
`fallback_default` source, the fixed notes string, confidence 0.3)
instead of propagating the error.
-/
theorem guarded_compute_signal_fallback (name : String) (resp : RawJson) (msg : String)
    (h : validate_dimension_score resp name (3/10) = .vErr msg) :
    guarded_compute_signal name resp = some (fallbackScore name) ∧
    (fallbackScore name).raw_score = 5/2 ∧
    (fallbackScore name).normalized_score = 50 ∧
    (fallbackScore name).sources = [("fallback_default")] ∧
    (fallbackScore name).notes = ("Validation error occurred; using default score") ∧
    (fallbackScore name).confidence = 3/10 := by
  refine ⟨?_, rfl, rfl, rfl, rfl, rfl⟩
  unfold guarded_compute_signal
  rw [h]

/-- C4 witness: unparseable JSON triggers the fallback. -/
theorem guarded_compute_signal_fallback_witness :
    guarded_compute_signal ("TechnologySignalAgent") RawJson.unparseable =
      some (fallbackScore ("TechnologySignalAgent")) ∧
    (fallbackScore ("TechnologySignalAgent")).raw_score = 5/2 := by
  obtain ⟨h1, h2, _⟩ := guarded_compute_signal_fallback ("TechnologySignalAgent")
    RawJson.unparseable ("Invalid JSON from TechnologySignalAgent") rfl
  exact ⟨h1, h2⟩

/--
C10: `generate_swot` is not total on maps with all values in `[0,100]`:
on the all-50 map — which is exactly the normalized map produced by six
fallback `DimensionScore`s — every threshold rule misses, the pydantic
`SWOT` validator rejects the all-empty record, and the full pipeline
assembly aborts at the Synthesize stage.
-/
theorem generate_swot_not_total_on_fallbacks :
    (calculate_prs (fallbackScore ("t")) (fallbackScore ("m")) (fallbackScore ("w"))
      (fallbackScore ("s")) (fallbackScore ("ti")) (fallbackScore ("r"))).normalized_scores =
      [(("tech_momentum"), 50), (("market_gravity"), 50), (("white_space"), 50),
       (("strategic_leverage"), 50), (("timing"), 50), (("regulatory_alignment"), 50)] ∧
    (∀ p ∈ [((("tech_momentum") : String), (50 : ℚ)), (("market_gravity"), 50), (("white_space"), 50),
       (("strategic_leverage"), 50), (("timing"), 50), (("regulatory_alignment"), 50)],
      0 ≤ p.2 ∧ p.2 ≤ 100) ∧
    generate_swot
      [(("tech_momentum"), 50), (("market_gravity"), 50), (("white_space"), 50),
       (("strategic_leverage"), 50), (("timing"), 50), (("regulatory_alignment"), 50)] =
      .error ("At least one SWOT category must have content") ∧
    pipeline_assemble ("idea") (fallbackScore ("t")) (fallbackScore ("m")) (fallbackScore ("w"))
      (fallbackScore ("r")) (fallbackScore ("s")) (fallbackScore ("ti")) .medium [] = none := by
  refine ⟨by norm_num [calculate_prs, fallbackScore], by norm_num, ?_, ?_⟩
  · norm_num [generate_swot, swotStrengths, swotWeaknesses, swotOpportunities, swotThreats, scoreGet, qLookup]
  · norm_num [pipeline_assemble, calculate_prs, fallbackScore, SCORING_WEIGHTS, generate_swot,
      swotStrengths, swotWeaknesses, swotOpportunities, swotThreats, scoreGet, qLookup,
      mkPatentRelevanceOutput]

/--
C7: every `DimensionScore` the pipeline constructs — by the guardrail
validator on success, by the fixed fallback, or by a non-guardrailed
evidence agent — satisfies `normalized_score = raw_score/5*100`, and
the normalized map returned by `calculate_prs` is the image of its raw
map under the same equation.
-/
theorem normalization_round_trip :
    (∀ (raw : RawJson) (a : String) (mc : ℚ) (ds : DimensionScore),
      validate_dimension_score raw a mc = .ok ds →
      ds.normalized_score = ds.raw_score / 5 * 100) ∧
    (∀ name : String,
      (fallbackScore name).normalized_score = (fallbackScore name).raw_score / 5 * 100) ∧
    (∀ (data : List (String × JsonVal)) (name : String) (dflt : List JsonVal)
      (ds : DimensionScore), plain_compute_signal data name dflt = some ds →
      ds.normalized_score = ds.raw_score / 5 * 100) ∧
    (∀ t m w s ti r : DimensionScore,
      (calculate_prs t m w s ti r).normalized_scores =
        (calculate_prs t m w s ti r).raw_scores.map fun p => (p.1, p.2 / 5 * 100)) := by
  refine ⟨?_, ?_, ?_, ?_⟩
  · intro raw a mc ds h
    exact (validate_classify raw a mc).2.2 ds h
  · intro name
    norm_num [fallbackScore]
  · intro data name dflt ds h
    simp only [plain_compute_signal] at h
    rcases hf : pyFloat (dictGet data ("aggregate_score") (.jnum (5/2))) with _ | sc <;>
      simp only [hf] at h
    · exact Option.noConfusion h
    rcases hsrc : dictGet data ("sources") (.jarr dflt) with _ | _ | xs | _ | _ | _ <;>
      simp only [hsrc] at h <;> try exact Option.noConfusion h
    rcases hsl : strListOfJson xs with _ | sources <;> simp only [hsl] at h
    · exact Option.noConfusion h
    rcases hn : dictGet data ("notes") (.jstr "") with _ | notes | _ | _ | _ | _ <;>
      simp only [hn] at h <;> try exact Option.noConfusion h
    simp only [mkDimensionScore] at h
    split at h
    · cases h
      rfl
    · exact Option.noConfusion h
  · intro t m w s ti r
    rfl

/-- C7 witness: the theorem applied to a concrete validated score, the
fallback, and a concrete non-guardrailed construction. -/
theorem normalization_round_trip_witness :
    ((⟨3, 60, [("s1")], ("A"), ("valid notes"), 1/2⟩ : DimensionScore).normalized_score =
      (⟨3, 60, [("s1")], ("A"), ("valid notes"), 1/2⟩ : DimensionScore).raw_score / 5 * 100) ∧
    ((fallbackScore ("F")).normalized_score = (fallbackScore ("F")).raw_score / 5 * 100) ∧
    ((⟨2, 40, [("LLM analysis")], ("B"), ("plain notes"), 1/2⟩ : DimensionScore).normalized_score =
      (⟨2, 40, [("LLM analysis")], ("B"), ("plain notes"), 1/2⟩ : DimensionScore).raw_score / 5 * 100) := by
  have hs1 : pyStripStr ("s1") = ("s1") := by decide
  have hs2 : pyStripStr ("valid notes") = ("valid notes") := by decide
  have hlen : (("valid notes"):String).length = 11 := by decide
  have hp1 : pyStripStr ("LLM analysis") = ("LLM analysis") := by decide
  have hp2 : pyStripStr ("plain notes") = ("plain notes") := by decide
  have hplen : (("plain notes"):String).length = 11 := by decide
  have hv : validate_dimension_score
      (.parsed [(("aggregate_score"), .jnum 3), (("sources"), .jarr [.jstr ("s1")]),
        (("notes"), .jstr ("valid notes")), (("confidence"), .jnum (1/2))])
      ("A") (3/10) = .ok ⟨3, 60, [("s1")], ("A"), ("valid notes"), 1/2⟩ := by
    simp [validate_dimension_score, dictGet, jsonLookup, pyFloat, mkDimensionScore,
      extractSources, hs1, hs2, hlen]
    norm_num
  have hp : plain_compute_signal
      [(("aggregate_score"), .jnum 2), (("notes"), .jstr ("plain notes"))] ("B")
      [.jstr ("LLM analysis")] = some ⟨2, 40, [("LLM analysis")], ("B"), ("plain notes"), 1/2⟩ := by
    simp [plain_compute_signal, dictGet, jsonLookup, pyFloat, strListOfJson,
      mkDimensionScore, hp1, hp2, hplen]
    norm_num
  refine ⟨?_, normalization_round_trip.2.1 ("F"), ?_⟩
  · exact normalization_round_trip.1 _ ("A") (3/10) _ hv
  · exact normalization_round_trip.2.2.1 _ ("B") _ _ hp

/--
C2 counterexample: on a parseable JSON object with no
`aggregate_score` field (and valid sources/notes), the claim says
`validate_dimension_score` raises `ValidationError`; the code instead
defaults the score to `0` and returns a `DimensionScore`.
-/
theorem validate_missing_score_accepted :
    jsonLookup [(("sources"), JsonVal.jarr [.jstr ("s1")]),
      (("notes"), JsonVal.jstr ("valid notes"))] ("aggregate_score") = none ∧
    validate_dimension_score
      (.parsed [(("sources"), .jarr [.jstr ("s1")]), (("notes"), .jstr ("valid notes"))])
      ("TechnologySignalAgent") (3/10) =
      .ok ⟨0, 0, [("s1")], ("TechnologySignalAgent"), ("valid notes"), 1/2⟩ := by
  have hs1 : pyStripStr ("s1") = ("s1") := by decide
  have hs2 : pyStripStr ("valid notes") = ("valid notes") := by decide
  have hlen : (("valid notes"):String).length = 11 := by decide
  constructor
  · simp [jsonLookup]
  · simp [validate_dimension_score, dictGet, jsonLookup, pyFloat, mkDimensionScore,
      extractSources, hs1, hs2, hlen]
    norm_num

/--
C2 (amended): `validate_dimension_score` raises `ValidationError` when
and only when: the JSON is unparseable; or the `aggregate_score` value
(defaulting to `0` when the field is missing) is non-numeric or outside
`[0,5]`; or `sources` is not a list, is empty, or contains no non-empty
string; or `notes` is not a string or shorter than 5 characters after
trimming; or the `confidence` value (defaulting to `0.5` when missing)
is numeric and either below `min_confidence` or outside `[0,1]`.  A
present but non-numeric `confidence` instead raises an uncaught
exception.  On every other input it returns a `DimensionScore`.
-/
theorem validate_dimension_score_amended (raw : RawJson) (a : String) (mc : ℚ) :
    ((∃ m, validate_dimension_score raw a mc = .vErr m) ↔ rejectCond raw mc) ∧
    (validate_dimension_score raw a mc = .uncaught ↔ uncaughtCond raw) ∧
    ((∃ ds, validate_dimension_score raw a mc = .ok ds) ↔
      ¬ rejectCond raw mc ∧ ¬ uncaughtCond raw) := by
  obtain ⟨h1, h2, _⟩ := validate_classify raw a mc
  refine ⟨h1, h2, ?_⟩
  constructor
  · rintro ⟨ds, hds⟩
    constructor
    · intro hrej
      obtain ⟨m, hm⟩ := h1.mpr hrej
      rw [hds] at hm
      simp at hm
    · intro hunc
      have hm := h2.mpr hunc
      rw [hds] at hm
      simp at hm
  · rintro ⟨hrej, hunc⟩
    rcases hv : validate_dimension_score raw a mc with ds | m | _
    · exact ⟨ds, rfl⟩
    · exact absurd (h1.mp ⟨m, hv⟩) hrej
    · exact absurd (h2.mp hv) hunc

/-- C2 witness: the amended theorem applied to unparseable input, where
the reject condition holds and a `ValidationError` results. -/
theorem validate_dimension_score_amended_witness :
    rejectCond RawJson.unparseable (3/10) ∧
    (∃ m, validate_dimension_score RawJson.unparseable ("A") (3/10) = .vErr m) := by
  have h := (validate_dimension_score_amended RawJson.unparseable ("A") (3/10)).1
  exact ⟨trivial, h.mpr trivial⟩

/--
C3 counterexample: with six concrete low-confidence signal scores the
batch check reports a non-empty issue list, the evaluation still
completes, but the returned flags are empty — the batch issue strings
do NOT appear in the result's flags.
-/
theorem batch_issues_absent_from_flags :
    (validate_multiple_scores
      [⟨1, 20, [("src")], ("A"), ("valid notes"), 1/10⟩,
       ⟨1, 20, [("src")], ("A"), ("valid notes"), 1/10⟩,
       ⟨1, 20, [("src")], ("A"), ("valid notes"), 1/10⟩,
       ⟨1, 20, [("src")], ("A"), ("valid notes"), 1/10⟩,
       ⟨1, 20, [("src")], ("A"), ("valid notes"), 1/10⟩,
       ⟨1, 20, [("src")], ("A"), ("valid notes"), 1/10⟩] 6).2 ≠ [] ∧
    (pipeline_assemble ("idea-1")
      ⟨1, 20, [("src")], ("A"), ("valid notes"), 1/10⟩
      ⟨1, 20, [("src")], ("A"), ("valid notes"), 1/10⟩
      ⟨1, 20, [("src")], ("A"), ("valid notes"), 1/10⟩
      ⟨1, 20, [("src")], ("A"), ("valid notes"), 1/10⟩
      ⟨1, 20, [("src")], ("A"), ("valid notes"), 1/10⟩
      ⟨1, 20, [("src")], ("A"), ("valid notes"), 1/10⟩ .medium []).map
        PatentRelevanceOutput.flags = some [] := by
  constructor
  · norm_num [validate_multiple_scores]
    simp
    norm_num
  · norm_num [pipeline_assemble, calculate_prs, SCORING_WEIGHTS, scoreGet, qLookup,
      generate_swot, swotStrengths, swotWeaknesses, swotOpportunities, swotThreats, mkPatentRelevanceOutput]
    simp

/--
C3 (amended): batch-level validation issues are computed and reported
through hooks/logging but are never accumulated into the result's
flags; the evaluation continues regardless of them, and the flags of
every completed evaluation are exactly the Reviewer's flags.
-/
theorem batch_issues_nonfatal_flags_from_reviewer
    (idea : String) (t m p r s ti : DimensionScore) (conf : ConfLevel)
    (rflags : List String) (out : PatentRelevanceOutput)
    (h : pipeline_assemble idea t m p r s ti conf rflags = some out) :
    out.flags = rflags := by
  simp only [pipeline_assemble] at h
  rcases hg : generate_swot (calculate_prs t m p s ti r).normalized_scores with e | sw <;>
    simp only [hg] at h
  · exact Option.noConfusion h
  · simp only [mkPatentRelevanceOutput] at h
    split at h
    · cases h
      rfl
    · exact Option.noConfusion h

/-- C3 witness: the amended theorem applied to a completed concrete
evaluation with a non-empty reviewer flag list. -/
theorem batch_issues_nonfatal_flags_from_reviewer_witness :
    (pipeline_assemble ("idea-2")
      ⟨1, 20, [("src")], ("A"), ("valid notes"), 1/10⟩
      ⟨1, 20, [("src")], ("A"), ("valid notes"), 1/10⟩
      ⟨1, 20, [("src")], ("A"), ("valid notes"), 1/10⟩
      ⟨1, 20, [("src")], ("A"), ("valid notes"), 1/10⟩
      ⟨1, 20, [("src")], ("A"), ("valid notes"), 1/10⟩
      ⟨1, 20, [("src")], ("A"), ("valid notes"), 1/10⟩ .medium [("reviewer flag")]).map
        PatentRelevanceOutput.flags = some [("reviewer flag")] := by
  rcases hx : pipeline_assemble ("idea-2")
      ⟨1, 20, [("src")], ("A"), ("valid notes"), 1/10⟩
      ⟨1, 20, [("src")], ("A"), ("valid notes"), 1/10⟩
      ⟨1, 20, [("src")], ("A"), ("valid notes"), 1/10⟩
      ⟨1, 20, [("src")], ("A"), ("valid notes"), 1/10⟩
      ⟨1, 20, [("src")], ("A"), ("valid notes"), 1/10⟩
      ⟨1, 20, [("src")], ("A"), ("valid notes"), 1/10⟩ .medium [("reviewer flag")] with _ | out
  · have hne : pipeline_assemble ("idea-2")
        ⟨1, 20, [("src")], ("A"), ("valid notes"), 1/10⟩
        ⟨1, 20, [("src")], ("A"), ("valid notes"), 1/10⟩
        ⟨1, 20, [("src")], ("A"), ("valid notes"), 1/10⟩
        ⟨1, 20, [("src")], ("A"), ("valid notes"), 1/10⟩
        ⟨1, 20, [("src")], ("A"), ("valid notes"), 1/10⟩
        ⟨1, 20, [("src")], ("A"), ("valid notes"), 1/10⟩ .medium [("reviewer flag")] ≠ none := by
      norm_num [pipeline_assemble, calculate_prs, SCORING_WEIGHTS, scoreGet, qLookup,
        generate_swot, swotStrengths, swotWeaknesses, swotOpportunities, swotThreats, mkPatentRelevanceOutput]
      rw [if_pos (Or.inl (List.cons_ne_nil _ _))]
      exact fun hcon => Option.noConfusion hcon
    exact absurd hx hne
  · exact congrArg some (batch_issues_nonfatal_flags_from_reviewer _ _ _ _ _ _ _ _ _ out hx)

/--
C8: for every completed evaluation, the dimension scores, normalized
scores, PRS and evidence map of the result are exactly the Aggregator's
outputs, for every possible Reviewer output; the Reviewer's
`(confidence, flags)` pair lands only in the `confidence` and `flags`
fields and alters no score.
-/
theorem reviewer_output_advisory_only
    (idea : String) (t m p r s ti : DimensionScore) (conf : ConfLevel)
    (rflags : List String) (out : PatentRelevanceOutput)
    (h : pipeline_assemble idea t m p r s ti conf rflags = some out) :
    out.dimension_scores = (calculate_prs t m p s ti r).raw_scores ∧
    out.normalized_scores = (calculate_prs t m p s ti r).normalized_scores ∧
    out.patent_relevance_score = (calculate_prs t m p s ti r).prs ∧
    out.evidence_map = (calculate_prs t m p s ti r).evidence_map ∧
    out.confidence = conf ∧ out.flags = rflags := by
  simp only [pipeline_assemble] at h
  rcases hg : generate_swot (calculate_prs t m p s ti r).normalized_scores with e | sw <;>
    simp only [hg] at h
  · exact Option.noConfusion h
  · simp only [mkPatentRelevanceOutput] at h
    split at h
    · cases h
      exact ⟨rfl, rfl, rfl, rfl, rfl, rfl⟩
    · exact Option.noConfusion h

/-- C8 witness: the theorem applied to a completed concrete evaluation;
the result's PRS is the Aggregator's and the flags are the Reviewer's. -/
theorem reviewer_output_advisory_only_witness :
    (pipeline_assemble ("idea-3")
      ⟨2, 40, [("src")], ("A"), ("valid notes"), 1/2⟩
      ⟨2, 40, [("src")], ("A"), ("valid notes"), 1/2⟩
      ⟨2, 40, [("src")], ("A"), ("valid notes"), 1/2⟩
      ⟨2, 40, [("src")], ("A"), ("valid notes"), 1/2⟩
      ⟨2, 40, [("src")], ("A"), ("valid notes"), 1/2⟩
      ⟨2, 40, [("src")], ("A"), ("valid notes"), 1/2⟩ .high [("f")]).map
        (fun o => (o.patent_relevance_score, o.confidence, o.flags)) =
      some ((calculate_prs
        ⟨2, 40, [("src")], ("A"), ("valid notes"), 1/2⟩
        ⟨2, 40, [("src")], ("A"), ("valid notes"), 1/2⟩
        ⟨2, 40, [("src")], ("A"), ("valid notes"), 1/2⟩
        ⟨2, 40, [("src")], ("A"), ("valid notes"), 1/2⟩
        ⟨2, 40, [("src")], ("A"), ("valid notes"), 1/2⟩
        ⟨2, 40, [("src")], ("A"), ("valid notes"), 1/2⟩).prs, ConfLevel.high, [("f")]) := by
  rcases hx : pipeline_assemble ("idea-3")
      ⟨2, 40, [("src")], ("A"), ("valid notes"), 1/2⟩
      ⟨2, 40, [("src")], ("A"), ("valid notes"), 1/2⟩
      ⟨2, 40, [("src")], ("A"), ("valid notes"), 1/2⟩
      ⟨2, 40, [("src")], ("A"), ("valid notes"), 1/2⟩
      ⟨2, 40, [("src")], ("A"), ("valid notes"), 1/2⟩
      ⟨2, 40, [("src")], ("A"), ("valid notes"), 1/2⟩ .high [("f")] with _ | out
  · have hne : pipeline_assemble ("idea-3")
        ⟨2, 40, [("src")], ("A"), ("valid notes"), 1/2⟩
        ⟨2, 40, [("src")], ("A"), ("valid notes"), 1/2⟩
        ⟨2, 40, [("src")], ("A"), ("valid notes"), 1/2⟩
        ⟨2, 40, [("src")], ("A"), ("valid notes"), 1/2⟩
        ⟨2, 40, [("src")], ("A"), ("valid notes"), 1/2⟩
        ⟨2, 40, [("src")], ("A"), ("valid notes"), 1/2⟩ .high [("f")] ≠ none := by
      norm_num [pipeline_assemble, calculate_prs, SCORING_WEIGHTS, scoreGet, qLookup,
        generate_swot, swotStrengths, swotWeaknesses, swotOpportunities, swotThreats, mkPatentRelevanceOutput]
      rw [if_pos (Or.inl (List.cons_ne_nil _ _))]
      exact fun hcon => Option.noConfusion hcon
    exact absurd hx hne
  · obtain ⟨_, _, h3, _, h5, h6⟩ := reviewer_output_advisory_only ("idea-3") _ _ _ _ _ _ _ _ out hx
    show some (out.patent_relevance_score, out.confidence, out.flags) = _
    rw [h3, h5, h6]

/--
C6: `validate_multiple_scores` is a total function (it never raises);
its boolean is true exactly when the issue list is empty, and the issue
list is non-empty exactly when fewer than the required number of scores
was supplied, or the average confidence is below 0.3, or some score has
`normalized_score > 95` together with `confidence < 0.6`.  In
particular, six scores all with confidence 0.1 yield `ok = false` with
an issue mentioning average confidence.
-/
theorem validate_multiple_scores_spec :
    (∀ (scores : List DimensionScore) (required : ℕ),
      ((validate_multiple_scores scores required).1 = true ↔
        (validate_multiple_scores scores required).2 = []) ∧
      ((validate_multiple_scores scores required).2 ≠ [] ↔
        (scores.length < required ∨ avgConfidence scores < 3/10 ∨
          ∃ s ∈ scores, 95 < s.normalized_score ∧ s.confidence < 3/5))) ∧
    ((validate_multiple_scores
        [⟨1, 20, [("x")], ("A"), ("notes ok"), 1/10⟩,
         ⟨1, 20, [("x")], ("A"), ("notes ok"), 1/10⟩,
         ⟨1, 20, [("x")], ("A"), ("notes ok"), 1/10⟩,
         ⟨1, 20, [("x")], ("A"), ("notes ok"), 1/10⟩,
         ⟨1, 20, [("x")], ("A"), ("notes ok"), 1/10⟩,
         ⟨1, 20, [("x")], ("A"), ("notes ok"), 1/10⟩] 6).1 = false ∧
      ∃ i ∈ (validate_multiple_scores
        [⟨1, 20, [("x")], ("A"), ("notes ok"), 1/10⟩,
         ⟨1, 20, [("x")], ("A"), ("notes ok"), 1/10⟩,
         ⟨1, 20, [("x")], ("A"), ("notes ok"), 1/10⟩,
         ⟨1, 20, [("x")], ("A"), ("notes ok"), 1/10⟩,
         ⟨1, 20, [("x")], ("A"), ("notes ok"), 1/10⟩,
         ⟨1, 20, [("x")], ("A"), ("notes ok"), 1/10⟩] 6).2,
        ∃ rest, i = ("Average confidence ") ++ rest) := by
  refine ⟨?_, ?_, ?_⟩
  · intro scores required
    have hsplit : (validate_multiple_scores scores required).2 =
        (if scores.length < required then
          [("Only ") ++ toString scores.length ++ (" dimensions provided, expected ") ++
            toString required] else []) ++
        (if avgConfidence scores < 3/10 then
          [("Average confidence ") ++ fmtFixed 2 (avgConfidence scores) ++
            (" is very low (< 0.3)")] else []) ++
        (scores.filterMap fun s =>
          if 95 < s.normalized_score ∧ s.confidence < 3/5 then
            some (s.agent ++ (": High score ") ++ fmtFixed 1 s.normalized_score ++
              (" with low confidence ") ++ fmtFixed 2 s.confidence)
          else none) := rfl
    have hfst : (validate_multiple_scores scores required).1 =
        decide ((validate_multiple_scores scores required).2.length = 0) := rfl
    constructor
    · rw [hfst]
      simp [List.length_eq_zero]
    · rw [Ne, hsplit]
      simp only [List.append_eq_nil, ite_singleton_eq_nil, List.filterMap_eq_nil_iff,
        ite_some_eq_none]
      constructor
      · intro h
        by_cases hA : scores.length < required
        · exact Or.inl hA
        by_cases hB : avgConfidence scores < 3/10
        · exact Or.inr (Or.inl hB)
        right
        right
        by_contra hC
        push_neg at hC
        exact h ⟨⟨hA, hB⟩, fun s hs hpq => absurd hpq.2 (not_lt.mpr (hC s hs hpq.1))⟩
      · rintro (hA | hB | ⟨s, hs, hP⟩) hcon
        · exact hcon.1.1 hA
        · exact hcon.1.2 hB
        · exact (hcon.2 s hs) hP
  · norm_num [validate_multiple_scores]
    rw [if_neg (List.cons_ne_nil _ _)]
    norm_num
  · norm_num [validate_multiple_scores]
    rw [if_neg (List.cons_ne_nil _ _)]
    norm_num
    exact ⟨_, String.append_assoc _ _ _⟩

/--
C5: for every normalized-scores map with values in `[0,100]` on which
`generate_swot` returns, the strengths are exactly the entries for
dimensions scoring at least 70, the weaknesses exactly those scoring at
most 40, the two opportunity entries fire independently at
`market_gravity ≥ 65` and `timing ≥ 65`, the two threat entries fire
independently at `regulatory_alignment ≤ 40` and `white_space ≤ 40`,
and an absent dimension key never triggers an opportunity or a threat.
-/
theorem generate_swot_spec (ns : List (String × ℚ))
    (hrange : ∀ p ∈ ns, 0 ≤ p.2 ∧ p.2 ≤ 100) (sw : SWOT)
    (h : generate_swot ns = .ok sw) :
    sw.strengths = (ns.filter fun p => 70 ≤ p.2).map (fun p => dimensionEntry p.1 p.2) ∧
    sw.weaknesses = (ns.filter fun p => p.2 ≤ 40).map (fun p => dimensionEntry p.1 p.2) ∧
    sw.opportunities =
      (if 65 ≤ scoreGet ns ("market_gravity") 0 then
        [("Strong market potential (") ++ fmtFixed 1 (scoreGet ns ("market_gravity") 0) ++ ("/100)")]
      else []) ++
      (if 65 ≤ scoreGet ns ("timing") 0 then
        [("Favorable timing (") ++ fmtFixed 1 (scoreGet ns ("timing") 0) ++ ("/100)")]
      else []) ∧
    sw.threats =
      (if scoreGet ns ("regulatory_alignment") 100 ≤ 40 then
        [("Regulatory friction (") ++ fmtFixed 1 (scoreGet ns ("regulatory_alignment") 100) ++ ("/100)")]
      else []) ++
      (if scoreGet ns ("white_space") 100 ≤ 40 then
        [("Crowded market (") ++ fmtFixed 1 (scoreGet ns ("white_space") 100) ++ ("/100)")]
      else []) ∧
    (qLookup ns ("market_gravity") = none ∧ qLookup ns ("timing") = none →
      sw.opportunities = []) ∧
    (qLookup ns ("regulatory_alignment") = none ∧ qLookup ns ("white_space") = none →
      sw.threats = []) := by
  unfold generate_swot at h
  by_cases hc : swotStrengths ns ≠ [] ∨ swotWeaknesses ns ≠ [] ∨
      swotOpportunities ns ≠ [] ∨ swotThreats ns ≠ []
  · rw [if_pos hc] at h
    injection h with h2
    subst h2
    refine ⟨rfl, rfl, rfl, rfl, ?_, ?_⟩
    · rintro ⟨h1, h2⟩
      show swotOpportunities ns = []
      simp [swotOpportunities, scoreGet, h1, h2]
    · rintro ⟨h1, h2⟩
      show swotThreats ns = []
      simp [swotThreats, scoreGet, h1, h2]
      norm_num
  · rw [if_neg hc] at h
    exact Except.noConfusion h

/-- C5 witness: the theorem applied to the concrete map from the spec's
SWOT example (tech 80, market 30, white 20, strategic 50, timing 70,
regulatory 35). -/
theorem generate_swot_spec_witness :
    generate_swot
      [(("tech_momentum"), 80), (("market_gravity"), 30), (("white_space"), 20),
       (("strategic_leverage"), 50), (("timing"), 70), (("regulatory_alignment"), 35)] =
      .ok ⟨[dimensionEntry ("tech_momentum") 80, dimensionEntry ("timing") 70],
        [dimensionEntry ("market_gravity") 30, dimensionEntry ("white_space") 20,
          dimensionEntry ("regulatory_alignment") 35],
        [("Favorable timing (") ++ fmtFixed 1 70 ++ ("/100)")],
        [("Regulatory friction (") ++ fmtFixed 1 35 ++ ("/100)"),
          ("Crowded market (") ++ fmtFixed 1 20 ++ ("/100)")]⟩ ∧
    (⟨[dimensionEntry ("tech_momentum") 80, dimensionEntry ("timing") 70],
        [dimensionEntry ("market_gravity") 30, dimensionEntry ("white_space") 20,
          dimensionEntry ("regulatory_alignment") 35],
        [("Favorable timing (") ++ fmtFixed 1 70 ++ ("/100)")],
        [("Regulatory friction (") ++ fmtFixed 1 35 ++ ("/100)"),
          ("Crowded market (") ++ fmtFixed 1 20 ++ ("/100)")]⟩ : SWOT).strengths =
      ([(("tech_momentum"), (80:ℚ)), (("market_gravity"), 30), (("white_space"), 20),
        (("strategic_leverage"), 50), (("timing"), 70), (("regulatory_alignment"), 35)].filter
          fun p => 70 ≤ p.2).map (fun p => dimensionEntry p.1 p.2) := by
  have hv : generate_swot
      [(("tech_momentum"), 80), (("market_gravity"), 30), (("white_space"), 20),
       (("strategic_leverage"), 50), (("timing"), 70), (("regulatory_alignment"), 35)] =
      .ok ⟨[dimensionEntry ("tech_momentum") 80, dimensionEntry ("timing") 70],
        [dimensionEntry ("market_gravity") 30, dimensionEntry ("white_space") 20,
          dimensionEntry ("regulatory_alignment") 35],
        [("Favorable timing (") ++ fmtFixed 1 70 ++ ("/100)")],
        [("Regulatory friction (") ++ fmtFixed 1 35 ++ ("/100)"),
          ("Crowded market (") ++ fmtFixed 1 20 ++ ("/100)")]⟩ := by
    simp [generate_swot, swotStrengths, swotWeaknesses, swotOpportunities, swotThreats,
      scoreGet, qLookup]
    norm_num
  exact ⟨hv, (generate_swot_spec _ (by norm_num) _ hv).1⟩

/--
C9: for every payload `p` with no triple-backtick sequence and every
trailing whitespace `w`, `sanitize_llm_output` returns `p` stripped of
surrounding whitespace when applied to the bare payload, to the payload
wrapped in a fence with the `json` language tag, and to the payload
wrapped in a fence without a tag — each optionally followed by trailing
whitespace.
-/
theorem sanitize_llm_output_spec (p w : List Char)
    (hp : hasBT p = false) (hw : ∀ c ∈ w, isPySpace c = true) :
    sanitize_llm_output (p ++ w) = pyStrip p ∧
    sanitize_llm_output (("```json\n").toList ++ p ++ ("\n```").toList ++ w) = pyStrip p ∧
    sanitize_llm_output (("```\n").toList ++ p ++ ("\n```").toList ++ w) = pyStrip p := by
  have hstrip_pw : pyStrip (p ++ w) = pyStrip p := by
    have h0 := pyStrip_sandwich [] p w (by simp) hw
    simpa using h0
  have hps := pyStrip_hasBT_false hp
  refine ⟨?_, ?_, ?_⟩
  · simp only [sanitize_llm_output]
    rw [hstrip_pw,
      if_neg (show ¬(bt.isPrefixOf (pyStrip p) = true) from
        fun hcon => not_bt_prefix_of_hasBT_false hps (List.isPrefixOf_iff_prefix.mp hcon)),
      if_neg (show ¬(bt.isSuffixOf (pyStrip p) = true) from
        fun hcon => not_bt_suffix_of_hasBT_false hps (List.isSuffixOf_iff_suffix.mp hcon))]
    exact pyStrip_idem p
  · have hmid : hasBT ((['j','s','o','n','\n'] ++ p) ++ ['\n']) = false := by
      rw [hasBT_append_single (by decide), noTick_hasBT_append (by decide)]
      exact hp
    have hlast : ((['j','s','o','n','\n'] ++ p) ++ ['\n']).getLast? ≠ some btChar := by
      rw [List.getLast?_concat]
      intro hcon
      have : '\n' = btChar := by injection hcon
      exact absurd this (by decide)
    have hraw : ("```json\n").toList ++ p ++ ("\n```").toList ++ w =
        (bt ++ ((['j','s','o','n','\n'] ++ p) ++ ['\n']) ++ bt) ++ w := by
      have h1 : ("```json\n").toList = bt ++ ['j','s','o','n','\n'] := by decide
      have h2 : ("\n```").toList = '\n' :: bt := by decide
      rw [h1, h2]
      simp [bt]
    have htext : pyStrip ((bt ++ ((['j','s','o','n','\n'] ++ p) ++ ['\n']) ++ bt) ++ w) =
        bt ++ ((['j','s','o','n','\n'] ++ p) ++ ['\n']) ++ bt := by
      have h0 := pyStrip_sandwich []
        (bt ++ ((['j','s','o','n','\n'] ++ p) ++ ['\n']) ++ bt) w (by simp) hw
      simpa using (h0.trans (pyStrip_fenced _))
    have hpre : bt.isPrefixOf (bt ++ ((['j','s','o','n','\n'] ++ p) ++ ['\n']) ++ bt) = true :=
      List.isPrefixOf_iff_prefix.mpr ⟨((['j','s','o','n','\n'] ++ p) ++ ['\n']) ++ bt,
        by simp [List.append_assoc]⟩
    have hsplit : splitBT (bt ++ ((['j','s','o','n','\n'] ++ p) ++ ['\n']) ++ bt) =
        [[], (['j','s','o','n','\n'] ++ p) ++ ['\n'], []] := by
      rw [show bt ++ ((['j','s','o','n','\n'] ++ p) ++ ['\n']) ++ bt =
        btChar :: btChar :: btChar ::
          (((['j','s','o','n','\n'] ++ p) ++ ['\n']) ++ btChar :: btChar :: btChar :: []) from
        by simp [bt], splitBT_bt, splitBT_append_bt [] _ hmid hlast]
      simp [splitBT]
    have hjson : (("json").toList).isPrefixOf ((['j','s','o','n','\n'] ++ p) ++ ['\n']) = true :=
      List.isPrefixOf_iff_prefix.mpr ⟨('\n' :: p) ++ ['\n'], by simp⟩
    have hdrop : ((['j','s','o','n','\n'] ++ p) ++ ['\n']).drop 4 = ('\n' :: p) ++ ['\n'] := by
      simp
    have hrest : hasBT (('\n' :: p) ++ ['\n']) = false := by
      rw [hasBT_append_single (by decide), hasBT_cons,
        startsBT_false_of_ne (by decide), hp]
      rfl
    simp only [sanitize_llm_output]
    rw [hraw, htext, if_pos hpre, hsplit,
      show ([[], (['j','s','o','n','\n'] ++ p) ++ ['\n'], []] : List (List Char)).getD 1 [] =
        (['j','s','o','n','\n'] ++ p) ++ ['\n'] from rfl,
      if_pos hjson, hdrop,
      if_neg (show ¬(bt.isSuffixOf (('\n' :: p) ++ ['\n']) = true) from
        fun hcon => not_bt_suffix_of_hasBT_false hrest (List.isSuffixOf_iff_suffix.mp hcon))]
    exact pyStrip_sandwich ['\n'] p ['\n'] (by decide) (by decide)
  · have hmid : hasBT ((['\n'] ++ p) ++ ['\n']) = false := by
      rw [hasBT_append_single (by decide), noTick_hasBT_append (by decide)]
      exact hp
    have hlast : ((['\n'] ++ p) ++ ['\n']).getLast? ≠ some btChar := by
      rw [List.getLast?_concat]
      intro hcon
      have : '\n' = btChar := by injection hcon
      exact absurd this (by decide)
    have hraw : ("```\n").toList ++ p ++ ("\n```").toList ++ w =
        (bt ++ ((['\n'] ++ p) ++ ['\n']) ++ bt) ++ w := by
      have h1 : ("```\n").toList = bt ++ ['\n'] := by decide
      have h2 : ("\n```").toList = '\n' :: bt := by decide
      rw [h1, h2]
      simp [bt]
    have htext : pyStrip ((bt ++ ((['\n'] ++ p) ++ ['\n']) ++ bt) ++ w) =
        bt ++ ((['\n'] ++ p) ++ ['\n']) ++ bt := by
      have h0 := pyStrip_sandwich []
        (bt ++ ((['\n'] ++ p) ++ ['\n']) ++ bt) w (by simp) hw
      simpa using (h0.trans (pyStrip_fenced _))
    have hpre : bt.isPrefixOf (bt ++ ((['\n'] ++ p) ++ ['\n']) ++ bt) = true :=
      List.isPrefixOf_iff_prefix.mpr ⟨((['\n'] ++ p) ++ ['\n']) ++ bt,
        by simp [List.append_assoc]⟩
    have hsplit : splitBT (bt ++ ((['\n'] ++ p) ++ ['\n']) ++ bt) =
        [[], (['\n'] ++ p) ++ ['\n'], []] := by
      rw [show bt ++ ((['\n'] ++ p) ++ ['\n']) ++ bt =
        btChar :: btChar :: btChar ::
          (((['\n'] ++ p) ++ ['\n']) ++ btChar :: btChar :: btChar :: []) from
        by simp [bt], splitBT_bt, splitBT_append_bt [] _ hmid hlast]
      simp [splitBT]
    have hjson : (("json").toList).isPrefixOf ((['\n'] ++ p) ++ ['\n']) = false := rfl
    simp only [sanitize_llm_output]
    rw [hraw, htext, if_pos hpre, hsplit,
      show ([[], (['\n'] ++ p) ++ ['\n'], []] : List (List Char)).getD 1 [] =
        (['\n'] ++ p) ++ ['\n'] from rfl,
      if_neg (show ¬((("json").toList).isPrefixOf ((['\n'] ++ p) ++ ['\n']) = true) from
        fun hcon => by rw [hjson] at hcon; exact Bool.noConfusion hcon),
      if_neg (show ¬(bt.isSuffixOf ((['\n'] ++ p) ++ ['\n']) = true) from
        fun hcon => not_bt_suffix_of_hasBT_false hmid (List.isSuffixOf_iff_suffix.mp hcon))]
    exact pyStrip_sandwich ['\n'] p ['\n'] (by decide) (by decide)

/-- C9 witness: the theorem applied to a concrete payload, once bare,
once in a `json`-tagged fence, once in a bare fence with trailing
whitespace. -/
theorem sanitize_llm_output_spec_witness :
    sanitize_llm_output (("  payload  ").toList) = ("payload").toList ∧
    sanitize_llm_output (("```json\npayload\n```").toList) = ("payload").toList ∧
    sanitize_llm_output (("```\npayload\n```  ").toList) = ("payload").toList := by
  obtain ⟨h1, h2, h3⟩ := sanitize_llm_output_spec (("  payload  ").toList) []
    (by decide) (by simp)
  obtain ⟨_, h5, _⟩ := sanitize_llm_output_spec (("payload").toList) []
    (by decide) (by simp)
  obtain ⟨_, _, h9⟩ := sanitize_llm_output_spec (("payload").toList) ("  ").toList
    (by decide) (by decide)
  refine ⟨?_, ?_, ?_⟩
  · have := h1
    rw [List.append_nil] at this
    rw [this]
    decide
  · have := h5
    rw [List.append_nil] at this
    rw [show ("```json\npayload\n```").toList =
      ("```json\n").toList ++ ("payload").toList ++ ("\n```").toList from by decide]
    rw [this]
    decide
  · rw [show ("```\npayload\n```  ").toList =
      ("```\n").toList ++ ("payload").toList ++ ("\n```").toList ++ ("  ").toList from by decide]
    rw [h9]
    decide

end AgenticEval
